import Mathlib

/-!
Shallow embedding of `hundt/google-location-history` (`src/main.go`).

The program reads a Google location history, computes a latitude/longitude
bounding box around a target point whose radius is derived from a distance
threshold, prefilters the points with a kd-bush range query, and scans the
resulting candidate span for "visits" (sustained runs of points within the
threshold of the target).

Conventions of the embedding:
* Go `float64` values are embedded as `ℚ`; all constants of the source
  (`1e-6`, `0.0001`, unit ratios) are exact decimal literals, so their ℚ
  images are exact.
* `geodist.VincentyDistance` is an external library function (it is not part
  of this repository's source); it is embedded as an oracle parameter
  `vd : Dist` returning either a distance in km or an error (the library
  returns an error when the iteration fails to converge).
* The two unbounded loops of `find` (expansion and bisection) take a fuel
  argument; `none` means the loop was still running after `fuel` iterations.
* Timestamps are embedded as `Int` (Unix seconds).
-/

deriving instance DecidableEq for Except

set_option maxRecDepth 40000

namespace GLH

/-- Embedding of `geodist.Point` (fields `Lat`, `Long`, decimal degrees). -/
structure Point where
  Lat : ℚ
  Long : ℚ
deriving DecidableEq, Repr

/-- Which coordinate of the point the Go code's `adjust *float64` pointer
aliases: `find` is called with `&p.Lat` or `&p.Long`. -/
inductive Axis where
  | lat
  | long
deriving DecidableEq, Repr

/-- Read the aliased coordinate. -/
def Point.get : Point → Axis → ℚ
  | p, .lat => p.Lat
  | p, .long => p.Long

/-- Write the aliased coordinate. -/
def Point.setAxis : Point → Axis → ℚ → Point
  | p, .lat, v => { p with Lat := v }
  | p, .long, v => { p with Long := v }

/-- The distance oracle standing for `geodist.VincentyDistance`:
either a distance in kilometers or a convergence error. -/
def Dist : Type := Point → Point → Except String ℚ

/-- Errors produced by `find` (`src/main.go:147-192`). -/
inductive FindError where
  | tooCloseToPoleOrMeridian
  | distanceError (phase : Nat) (msg : String)
deriving DecidableEq, Repr

/-- Expansion phase of `find` (`src/main.go:148-162`): starting from the
center, step the aliased coordinate by `inc` (initially `1e-6`, doubling
after every probe) in direction `dir` until the distance from `p1` exceeds
`targetDistance`; fail if the coordinate passes `limit` first. -/
def expand (vd : Dist) (p1 : Point) (axis : Axis) (dir limit targetDistance : ℚ) :
    Nat → Point → ℚ → Option (Except FindError Point)
  | 0, _, _ => none
  | fuel + 1, p2, inc =>
    let p2' := p2.setAxis axis (p2.get axis + inc * dir)
    if p2'.get axis * dir > limit * dir then
      some (Except.error FindError.tooCloseToPoleOrMeridian)
    else
      match vd p1 p2' with
      | Except.error e => some (Except.error (FindError.distanceError 1 e))
      | Except.ok d =>
        if d > targetDistance then some (Except.ok p2')
        else expand vd p1 axis dir limit targetDistance fuel p2' (inc * 2)

/-- Absolute value written the way the Go code computes it
(`delta := d - targetDistance; if delta < 0 { delta = -delta }`). -/
def qabs (x : ℚ) : ℚ := if x < 0 then -x else x

/-- Bisection phase of `find` (`src/main.go:166-191`): `a` starts at the
center and `b` at the expansion point; repeatedly probe the midpoint and
keep the two bounds on either side of the `d = targetDistance` line until
the midpoint's distance is within `0.0001` km (the local `threshold`)
of the target. -/
def bisect (vd : Dist) (p1 : Point) (targetDistance : ℚ) :
    Nat → Point → Point → Option (Except FindError Point)
  | 0, _, _ => none
  | fuel + 1, a, b =>
    let m : Point := ⟨(a.Lat + b.Lat) / 2, (a.Long + b.Long) / 2⟩
    match vd p1 m with
    | Except.error e => some (Except.error (FindError.distanceError 2 e))
    | Except.ok d =>
      let delta := qabs (d - targetDistance)
      if delta < 1/10000 then some (Except.ok m)
      else if d > targetDistance then bisect vd p1 targetDistance fuel a m
      else bisect vd p1 targetDistance fuel m b

/-- Embedding of `find` (`src/main.go:147-192`): expansion followed by
bisection.  In the Go code `p2` starts as a copy of `p1` and `adjust`
points at one of its coordinates. -/
def find (vd : Dist) (p1 : Point) (axis : Axis) (dir limit targetDistance : ℚ)
    (fuel : Nat) : Option (Except FindError Point) :=
  match expand vd p1 axis dir limit targetDistance fuel p1 (1/1000000) with
  | none => none
  | some (Except.error e) => some (Except.error e)
  | some (Except.ok p2) => bisect vd p1 targetDistance fuel p1 p2

/-- Embedding of `findBoundingBox` (`src/main.go:194-224`): run `find` east,
north, west, south (in that order, propagating the first error) and compose
`ne = (north.Lat, east.Long)`, `sw = (south.Lat, west.Long)`. -/
def findBoundingBox (vd : Dist) (p : Point) (size : ℚ) (fuel : Nat) :
    Option (Except FindError (Point × Point)) :=
  match find vd p Axis.long 1 180 size fuel with
  | none => none
  | some (Except.error e) => some (Except.error e)
  | some (Except.ok e) =>
    match find vd p Axis.lat 1 90 size fuel with
    | none => none
    | some (Except.error err) => some (Except.error err)
    | some (Except.ok n) =>
      match find vd p Axis.long (-1) (-180) size fuel with
      | none => none
      | some (Except.error err) => some (Except.error err)
      | some (Except.ok w) =>
        match find vd p Axis.lat (-1) (-90) size fuel with
        | none => none
        | some (Except.error err) => some (Except.error err)
        | some (Except.ok s) =>
          some (Except.ok (⟨n.Lat, e.Long⟩, ⟨s.Lat, w.Long⟩))

/-! ## Threshold parsing (`parseDistance`, `src/main.go:100-132`) -/

/-- Modelled from the spec: Go's `strings.TrimSpace` (the units collaborator
trims surrounding whitespace); whitespace removed from both ends. -/
def goTrimSpace (s : String) : String :=
  ⟨((s.toList.dropWhile Char.isWhitespace).reverse.dropWhile Char.isWhitespace).reverse⟩

/-- Modelled from the spec: Go's `strings.ToLower` on the threshold string
(ASCII case folding suffices for the unit suffixes involved). -/
def goToLower (s : String) : String :=
  ⟨s.toList.map Char.toLower⟩

/-- Modelled from the spec: Go's `strings.HasSuffix`. -/
def goHasSuffix (s suffix : String) : Bool :=
  suffix.toList.isSuffixOf s.toList

/-- Modelled from the spec: Go's `strings.TrimSuffix` (drop the suffix if
present, otherwise return the string unchanged). -/
def goTrimSuffix (s suffix : String) : String :=
  if goHasSuffix s suffix then ⟨s.toList.take (s.toList.length - suffix.toList.length)⟩
  else s

/-- Decimal digits of a character list read as a natural number. -/
def digitsToNat (l : List Char) : Nat :=
  l.foldl (fun a c => a * 10 + (c.toNat - 48)) 0

/-- Modelled from the spec: the numeric parsing of the units collaborator
(Go `strconv.ParseFloat`), restricted to plain decimal literals — optional
sign, integer digits, optional fraction, optional decimal exponent — and
evaluated exactly over ℚ (the embedding of `float64` values). -/
def goParseFloat (s : String) : Except String ℚ :=
  let cs := s.toList
  let (neg, cs1) :=
    match cs with
    | '-' :: r => (true, r)
    | '+' :: r => (false, r)
    | r => (false, r)
  let intPart := cs1.takeWhile Char.isDigit
  let rest1 := cs1.dropWhile Char.isDigit
  let (fracPart, rest2) :=
    match rest1 with
    | '.' :: r => (r.takeWhile Char.isDigit, r.dropWhile Char.isDigit)
    | r => ([], r)
  let hasDot : Bool := match rest1 with | '.' :: _ => true | _ => false
  let (expOk, expNeg, expDigits, rest3) :=
    match rest2 with
    | 'e' :: '-' :: r => (true, true, r.takeWhile Char.isDigit, r.dropWhile Char.isDigit)
    | 'e' :: '+' :: r => (true, false, r.takeWhile Char.isDigit, r.dropWhile Char.isDigit)
    | 'e' :: r => (true, false, r.takeWhile Char.isDigit, r.dropWhile Char.isDigit)
    | 'E' :: '-' :: r => (true, true, r.takeWhile Char.isDigit, r.dropWhile Char.isDigit)
    | 'E' :: '+' :: r => (true, false, r.takeWhile Char.isDigit, r.dropWhile Char.isDigit)
    | 'E' :: r => (true, false, r.takeWhile Char.isDigit, r.dropWhile Char.isDigit)
    | r => (false, false, [], r)
  if rest3 ≠ [] then Except.error "syntax"
  else if intPart = [] ∧ (hasDot = false ∨ fracPart = []) then Except.error "syntax"
  else if expOk ∧ expDigits = [] then Except.error "syntax"
  else
    let mantissa : ℚ :=
      (digitsToNat intPart : ℚ) + (digitsToNat fracPart : ℚ) / ((10 : ℚ) ^ fracPart.length)
    let e : ℤ := if expNeg then -(digitsToNat expDigits : ℤ) else (digitsToNat expDigits : ℤ)
    let v := mantissa * (10 : ℚ) ^ e
    Except.ok (if neg then -v else v)

/-- One entry of the `units` table of `parseDistance`. -/
structure DistUnit where
  abbr : String
  perKM : ℚ
deriving DecidableEq, Repr

/-- The `units` table (`src/main.go:101-117`), in source order:
km, ft, mi, m. -/
def units : List DistUnit :=
  [⟨"km", 1⟩, ⟨"ft", 328084/100⟩, ⟨"mi", 621371/1000000⟩, ⟨"m", 1000⟩]

/-- Embedding of `parseDistance` (`src/main.go:100-132`): lowercase and trim
the string, find the first unit whose abbreviation is a suffix, strip it,
trim again, parse the number and divide by the unit's `perKM` factor. -/
def parseDistance (dist : String) : Except String ℚ :=
  let d := goToLower (goTrimSpace dist)
  match units.find? (fun u => goHasSuffix d u.abbr) with
  | none => Except.error "No recognized units in distance"
  | some u =>
    match goParseFloat (goTrimSpace (goTrimSuffix d u.abbr)) with
    | Except.error e => Except.error ("Error parsing distance: " ++ e)
    | Except.ok count => Except.ok (count / u.perKM)

/-! ## Timestamp conversion (`src/main.go:303-316`) -/

/-- Outcome of converting one takeout record's `timestampMs` string. -/
inductive TimestampOutcome where
  | panics
  | fatalError
  | ok (seconds : Int)
deriving DecidableEq, Repr

/-- Modelled from the spec: Go `strconv.ParseInt(s, 10, 64)` — optional
sign, at least one decimal digit, value within the signed 64-bit range. -/
def parseInt64 (s : String) : Except String Int :=
  let cs := s.toList
  let ds := if cs.headD ' ' = '-' ∨ cs.headD ' ' = '+' then cs.tail else cs
  if ds = [] then Except.error "invalid syntax"
  else if ¬ ds.all Char.isDigit then Except.error "invalid syntax"
  else
    let n : Int := (digitsToNat ds : Int)
    let v : Int := if cs.headD ' ' = '-' then -n else n
    if v < -(2 ^ 63) ∨ 2 ^ 63 - 1 < v then Except.error "value out of range"
    else Except.ok v

/-- Embedding of the timestamp conversion in the takeout decode loop
(`src/main.go:305-309`): `location.Timestamp[:len(location.Timestamp)-3]`
panics (slice bounds out of range) when the string is shorter than 3 bytes
(for a too-short string `len-3` underflows below 0); otherwise the prefix
is parsed and a parse failure is a fatal log message.  The byte length of
the Go string equals the character count for ASCII timestamps. -/
def convertTimestamp (ts : String) : TimestampOutcome :=
  let cs := ts.toList
  if cs.length < 3 then TimestampOutcome.panics
  else
    match parseInt64 ⟨cs.take (cs.length - 3)⟩ with
    | Except.error _ => TimestampOutcome.fatalError
    | Except.ok seconds => TimestampOutcome.ok seconds

/-! ## Visit detection scan (`src/main.go:331-393`) -/

/-- Embedding of `ConvertedLocation` (latitude/longitude in degrees, Unix
seconds timestamp). -/
structure ConvertedLocation where
  Latitude : ℚ
  Longitude : ℚ
  Time : Int
deriving DecidableEq, Repr

instance : Inhabited ConvertedLocation := ⟨⟨0, 0, 0⟩⟩

/-- A reported visit (the fields of the `Visited for ...` log line,
`src/main.go:384`). -/
structure VisitRecord where
  startTime : Int
  endTime : Int
  totalInside : Nat
  maxConsecutiveInside : Nat
deriving DecidableEq, Repr

/-- The minimum run length `minPinpointCount` (`src/main.go:269`). -/
def minPinpointCount : Nat := 10

/-- The mutable state of the scan loop (`src/main.go:347-348`), plus the
two log streams: emitted visits (`Visited for ...`) and the runs dropped
as noise, which are printed only in debug mode (`Dropped visit ...`). -/
structure ScanState where
  startTime : Int
  endTime : Int
  totalInsideCount : Nat
  consecutiveInsideCount : Nat
  maxConsecutiveInsideCount : Nat
  consecutiveOutsideCount : Nat
  visits : List VisitRecord
  dropped : List VisitRecord
deriving DecidableEq, Repr

/-- The initial scan state (zero values of the Go declarations). -/
def initState : ScanState := ⟨0, 0, 0, 0, 0, 0, [], []⟩

/-- Classification of index `idx` by the loop body (`src/main.go:351-363`):
`none` when the point is a candidate whose distance computation fails (the
loop does `continue`), otherwise `some inside` where `inside` says whether
the final `d < threshholdKm` test holds (`d` is the computed distance for
candidates and `threshholdKm * 2` for non-candidates). -/
def classify (vd : Dist) (target : Point) (threshholdKm : ℚ)
    (points : List ConvertedLocation) (indexes : List Nat) (idx : Nat) :
    Option Bool :=
  let loc := points.getD idx default
  if idx ∈ indexes then
    match vd ⟨loc.Latitude, loc.Longitude⟩ target with
    | Except.error _ => none
    | Except.ok d => some (decide (d < threshholdKm))
  else some (decide (threshholdKm * 2 < threshholdKm))

/-- The inside branch (`src/main.go:364-377`). -/
def insideUpdate (loc : ConvertedLocation) (st : ScanState) : ScanState :=
  { st with
    startTime := if st.totalInsideCount = 0 then loc.Time else st.startTime
    endTime := loc.Time
    totalInsideCount := st.totalInsideCount + 1
    consecutiveInsideCount := st.consecutiveInsideCount + 1
    maxConsecutiveInsideCount :=
      max st.maxConsecutiveInsideCount (st.consecutiveInsideCount + 1)
    consecutiveOutsideCount := 0 }

/-- The outside branch (`src/main.go:378-381`). -/
def outsideUpdate (st : ScanState) : ScanState :=
  { st with
    consecutiveOutsideCount := st.consecutiveOutsideCount + 1
    consecutiveInsideCount := 0 }

/-- The record described by the current counters, as printed at run
closure (`src/main.go:384-387`). -/
def runRecord (st : ScanState) : VisitRecord :=
  ⟨st.startTime, st.endTime, st.totalInsideCount, st.maxConsecutiveInsideCount⟩

/-- Run closure (`src/main.go:382-392`): report a visit when
`maxConsecutiveInsideCount >= minPinpointCount`, otherwise report a dropped
run in debug mode when any point was inside; reset `totalInsideCount` and
`maxConsecutiveInsideCount`. -/
def closeRun (debug : Bool) (st : ScanState) : ScanState :=
  let st' :=
    if minPinpointCount ≤ st.maxConsecutiveInsideCount then
      { st with visits := st.visits ++ [runRecord st] }
    else if 0 < st.totalInsideCount ∧ debug = true then
      { st with dropped := st.dropped ++ [runRecord st] }
    else st
  { st' with totalInsideCount := 0, maxConsecutiveInsideCount := 0 }

/-- One iteration of the scan loop (`src/main.go:350-393`) at index `idx`.
A skipped point (`continue`, `src/main.go:361`) leaves the state unchanged
and in particular skips the run-closure check.  `lastIdx` is
`indexes[len(indexes)-1]`, the largest candidate index. -/
def scanStep (vd : Dist) (debug : Bool) (target : Point) (threshholdKm : ℚ)
    (points : List ConvertedLocation) (indexes : List Nat) (lastIdx : Nat)
    (st : ScanState) (idx : Nat) : ScanState :=
  match classify vd target threshholdKm points indexes idx with
  | none => st
  | some inside =>
    let st1 :=
      if inside then insideUpdate (points.getD idx default) st
      else outsideUpdate st
    if minPinpointCount ≤ st1.consecutiveOutsideCount ∨ idx = lastIdx then
      closeRun debug st1
    else st1

/-- Fold the scan loop over a list of indices. -/
def scanIndices (vd : Dist) (debug : Bool) (target : Point) (threshholdKm : ℚ)
    (points : List ConvertedLocation) (indexes : List Nat) (lastIdx : Nat)
    (l : List Nat) : ScanState :=
  l.foldl (scanStep vd debug target threshholdKm points indexes lastIdx) initState

/-- The scan of the candidate span (`src/main.go:342-393`): the candidate
indices are sorted (`sort.Ints`), the span runs from the smallest to the
largest candidate index inclusive, and candidate membership is tested
against the `candidates` set built from the same indices. -/
def scanVisits (vd : Dist) (debug : Bool) (target : Point) (threshholdKm : ℚ)
    (points : List ConvertedLocation) (indexes : List Nat) : ScanState :=
  let sorted := indexes.insertionSort (· ≤ ·)
  let first := sorted.headD 0
  let last := sorted.getLastD 0
  scanIndices vd debug target threshholdKm points indexes last
    (List.range' first (last + 1 - first))

/-- Modelled from the spec: the spatial index (`kdbush.NewBush` plus
`bush.Range`, an external library) — the range query returns exactly the
indices of the points inside the rectangle, `Coordinates()` being
`(Latitude, Longitude)`. -/
def rangeQuery (points : List ConvertedLocation)
    (minX minY maxX maxY : ℚ) : List Nat :=
  (List.range points.length).filter fun i =>
    let p := points.getD i default
    decide (minX ≤ p.Latitude) && decide (p.Latitude ≤ maxX) &&
      decide (minY ≤ p.Longitude) && decide (p.Longitude ≤ maxY)

/-- The part of `main` from the range query to the scan
(`src/main.go:338-393`): query the index with the box corners; if no
candidate is returned, return immediately with no visits; otherwise scan
the candidate span. -/
def runScan (vd : Dist) (debug : Bool) (target : Point) (threshholdKm : ℚ)
    (points : List ConvertedLocation) (sw ne : Point) : List VisitRecord :=
  let indexes := rangeQuery points sw.Lat sw.Long ne.Lat ne.Long
  if indexes.isEmpty then []
  else (scanVisits vd debug target threshholdKm points indexes).visits

/-- A fatal startup error of `main`. -/
inductive MainError where
  | unitParse (msg : String)
  | boundingBox (e : FindError)
deriving DecidableEq, Repr

/-- The geospatial pipeline of `main` (`src/main.go:256-393`): parse the
threshold (fatal on error), find the bounding box for twice the threshold
(fatal on error, so no scan happens), then run the scan.  `none` stands
for a `find` loop still running after `fuel` iterations. -/
def mainFlow (vd : Dist) (debug : Bool) (targetLat targetLong : ℚ)
    (thresholdStr : String) (points : List ConvertedLocation) (fuel : Nat) :
    Option (Except MainError (List VisitRecord)) :=
  match parseDistance thresholdStr with
  | Except.error e => some (Except.error (MainError.unitParse e))
  | Except.ok threshholdKm =>
    match findBoundingBox vd ⟨targetLat, targetLong⟩ (threshholdKm * 2) fuel with
    | none => none
    | some (Except.error e) => some (Except.error (MainError.boundingBox e))
    | some (Except.ok (ne', sw')) =>
      some (Except.ok (runScan vd debug ⟨targetLat, targetLong⟩ threshholdKm
        points sw' ne'))

/-- Membership of a point in the axis-aligned box `[sw, ne]` — the
rectangle semantics of the range query of `src/main.go:338`. -/
def inBox (sw ne' p : Point) : Prop :=
  sw.Lat ≤ p.Lat ∧ p.Lat ≤ ne'.Lat ∧ sw.Long ≤ p.Long ∧ p.Long ≤ ne'.Long

instance (sw ne' p : Point) : Decidable (inBox sw ne' p) := by
  unfold inBox
  infer_instance

/-! ## Concrete distance oracles used by witnesses and counterexamples -/

/-- The constant-zero distance oracle. -/
def vdZero : Dist := fun _ _ => Except.ok 0

/-- An oracle whose distance grows by `1.9999` per `1e-6` degrees of taxicab
offset, so the first bisection midpoint lands at distance `0.99995` — within
the `0.0001` tolerance but strictly below the target. -/
def vdSlack : Dist := fun p q =>
  Except.ok (1999900 * (qabs (q.Lat - p.Lat) + qabs (q.Long - p.Long)))

/-- An oracle that fails to converge exactly at coordinates `(9, 9)`. -/
def vdFailAt99 : Dist := fun p _ =>
  if p = ⟨9, 9⟩ then Except.error "failed to converge" else Except.ok 0

/-! ## Helper lemmas -/

theorem qabs_eq_abs (x : ℚ) : qabs x = |x| := by
  unfold qabs
  rcases lt_or_le x 0 with h | h
  · rw [if_pos h, abs_of_neg h]
  · rw [if_neg (not_lt.mpr h), abs_of_nonneg h]

/-! ## Claim C9 -/

/-- Claim C9: if the spatial index range query over the bounding box
returns an empty candidate set, the program returns immediately without
scanning and emits no VisitRecords. -/
theorem C9_empty_query_no_visits (vd : Dist) (debug : Bool) (target : Point)
    (threshholdKm : ℚ) (points : List ConvertedLocation) (sw ne' : Point)
    (h : rangeQuery points sw.Lat sw.Long ne'.Lat ne'.Long = []) :
    runScan vd debug target threshholdKm points sw ne' = [] := by
  unfold runScan
  rw [h]
  rfl

theorem C9_witness :
    rangeQuery [⟨5, 5, 0⟩] 0 0 1 1 = [] ∧
    runScan vdZero false ⟨0, 0⟩ 1 [⟨5, 5, 0⟩] ⟨0, 0⟩ ⟨1, 1⟩ = [] :=
  ⟨by decide, C9_empty_query_no_visits vdZero false ⟨0, 0⟩ 1 [⟨5, 5, 0⟩]
    ⟨0, 0⟩ ⟨1, 1⟩ (by decide)⟩

/-! ## Claim C10 -/

theorem char_isDigit_toNat_le {c : Char} (h : c.isDigit = true) :
    c.toNat - 48 ≤ 9 := by
  simp only [Char.isDigit, Bool.and_eq_true, decide_eq_true_eq] at h
  obtain ⟨h1, h2⟩ := h
  have hv : c.val.toNat ≤ 57 := by
    cases c with
    | mk v hv => simpa only [Char.le_def] using h2
  have he : c.toNat = c.val.toNat := rfl
  omega

theorem char_isDigit_ne_sign {c : Char} (h : c.isDigit = true) :
    c ≠ '-' ∧ c ≠ '+' := by
  constructor <;> intro he <;> subst he <;> simp at h

theorem digitsToNat_aux_lt (l : List Char) (hd : ∀ c ∈ l, c.isDigit = true) :
    ∀ a : Nat, l.foldl (fun a c => a * 10 + (c.toNat - 48)) a <
      (a + 1) * 10 ^ l.length := by
  induction l with
  | nil => intro a; simp
  | cons c l ih =>
    intro a
    have hc : c.toNat - 48 ≤ 9 :=
      char_isDigit_toNat_le (hd c (List.mem_cons_self c l))
    have htail := ih (fun x hx => hd x (List.mem_cons_of_mem c hx)) (a * 10 + (c.toNat - 48))
    calc List.foldl (fun a c => a * 10 + (c.toNat - 48)) (a * 10 + (c.toNat - 48)) l
        < (a * 10 + (c.toNat - 48) + 1) * 10 ^ l.length := htail
      _ ≤ ((a + 1) * 10) * 10 ^ l.length := by
          have : a * 10 + (c.toNat - 48) + 1 ≤ (a + 1) * 10 := by omega
          exact Nat.mul_le_mul_right _ this
      _ = (a + 1) * 10 ^ (c :: l).length := by
          rw [List.length_cons, pow_succ]
          ring

theorem digitsToNat_lt (l : List Char) (hd : ∀ c ∈ l, c.isDigit = true) :
    digitsToNat l < 10 ^ l.length := by
  simpa using digitsToNat_aux_lt l hd 0

/-- A well-formed millisecond timestamp string: decimal digits only, at
least one second digit in front of the three millisecond digits, and small
enough that the seconds fit in a signed 64-bit integer. -/
def wellFormedMs (ts : String) : Prop :=
  (∀ c ∈ ts.toList, c.isDigit = true) ∧ 4 ≤ ts.toList.length ∧ ts.toList.length ≤ 21

/-- Claim C10: decoding the takeout file slices off the last three
characters of `timestampMs` unconditionally, so any record whose timestamp
string is shorter than 3 characters makes the program panic with a
slice-bounds error rather than reach the fatal parse-error message, while
a well-formed millisecond timestamp never panics (the sliced seconds
prefix parses successfully). -/
theorem C10_timestamp_slice :
    (∀ ts : String, ts.toList.length < 3 →
      convertTimestamp ts = TimestampOutcome.panics) ∧
    (∀ ts : String, wellFormedMs ts →
      ∃ n : Int, convertTimestamp ts = TimestampOutcome.ok n) := by
  constructor
  · intro ts h
    unfold convertTimestamp
    rw [if_pos h]
  · intro ts ⟨hdig, hlen, hlen21⟩
    unfold convertTimestamp
    rw [if_neg (by omega)]
    set cs := ts.toList with hcs
    have hds : (⟨cs.take (cs.length - 3)⟩ : String).toList = cs.take (cs.length - 3) := rfl
    have htakelen : (cs.take (cs.length - 3)).length = cs.length - 3 := by
      rw [List.length_take]
      omega
    have htakedig : ∀ c ∈ cs.take (cs.length - 3), c.isDigit = true :=
      fun c hc => hdig c (List.mem_of_mem_take hc)
    have hne : cs.take (cs.length - 3) ≠ [] := by
      intro h0
      rw [h0] at htakelen
      simp at htakelen
      omega
    simp only [parseInt64, hds]
    have hhead : (cs.take (cs.length - 3)).headD ' ' ≠ '-' ∧
        (cs.take (cs.length - 3)).headD ' ' ≠ '+' := by
      rcases hh : cs.take (cs.length - 3) with _ | ⟨c, r⟩
      · exact absurd hh hne
      · exact char_isDigit_ne_sign (htakedig c (by rw [hh]; exact List.mem_cons_self c r))
    have hsign : ¬ ((cs.take (cs.length - 3)).headD ' ' = '-' ∨
        (cs.take (cs.length - 3)).headD ' ' = '+') := by
      push_neg
      exact hhead
    rw [if_neg hsign]
    rw [if_neg hne]
    have hall : (cs.take (cs.length - 3)).all Char.isDigit = true := by
      simp only [List.all_eq_true, decide_eq_true_eq]
      exact fun c hc => htakedig c hc
    rw [if_neg (not_not_intro hall)]
    rw [if_neg hhead.1]
    have hlt : digitsToNat (cs.take (cs.length - 3)) < 10 ^ 18 := by
      calc digitsToNat (cs.take (cs.length - 3)) <
          10 ^ (cs.take (cs.length - 3)).length := digitsToNat_lt _ htakedig
        _ ≤ 10 ^ 18 := by
            apply Nat.pow_le_pow_right (by omega)
            omega
    rw [if_neg (by
      push_neg
      have h63 : ((2 : Int) ^ 63) = 9223372036854775808 := by norm_num
      rw [h63]
      have h0 : (0 : Int) ≤ (digitsToNat (cs.take (cs.length - 3)) : Int) :=
        Int.ofNat_nonneg _
      have hI : (digitsToNat (cs.take (cs.length - 3)) : Int) < 1000000000000000000 := by
        have := Int.ofNat_lt.mpr hlt
        simpa using this
      omega)]
    exact ⟨_, rfl⟩

theorem C10_witness :
    convertTimestamp "12" = TimestampOutcome.panics ∧
    (∃ n : Int, convertTimestamp "1700000000000" = TimestampOutcome.ok n) :=
  ⟨C10_timestamp_slice.1 "12" (by decide),
   C10_timestamp_slice.2 "1700000000000" ⟨by decide, by decide, by decide⟩⟩

/-! ## Claim C7 -/

/-- Claim C7: threshold parsing succeeds — returning the numeric value
converted to kilometers exactly — precisely when the trimmed, lowercased
string ends with a recognized unit suffix (the first match in table order
km, ft, mi, m) whose remaining numeric part parses; in particular "50m"
parses to 0.05 km exactly; otherwise an error is returned. -/
theorem C7_parse_distance :
    parseDistance "50m" = Except.ok (1/20) ∧
    (∀ s : String,
      ((∃ km, parseDistance s = Except.ok km) ↔
        (∃ u, units.find? (fun v => goHasSuffix (goToLower (goTrimSpace s)) v.abbr) = some u ∧
          ∃ c, goParseFloat (goTrimSpace (goTrimSuffix (goToLower (goTrimSpace s)) u.abbr)) =
            Except.ok c)) ∧
      (∀ u c,
        units.find? (fun v => goHasSuffix (goToLower (goTrimSpace s)) v.abbr) = some u →
        goParseFloat (goTrimSpace (goTrimSuffix (goToLower (goTrimSpace s)) u.abbr)) =
          Except.ok c →
        parseDistance s = Except.ok (c / u.perKM))) := by
  constructor
  · have h1 : goToLower (goTrimSpace "50m") = "50m" := by decide
    have h2 : units.find? (fun v => goHasSuffix "50m" v.abbr) = some ⟨"m", 1000⟩ := by decide
    have h3 : goTrimSpace (goTrimSuffix "50m" "m") = "50" := by decide
    have h4 : goParseFloat "50" = Except.ok 50 := by
      with_unfolding_all decide
    simp only [parseDistance, h1, h2, h3, h4]
    norm_num
  · intro s
    rcases hf : units.find? (fun v => goHasSuffix (goToLower (goTrimSpace s)) v.abbr)
      with _ | u
    · refine ⟨⟨?_, ?_⟩, ?_⟩
      · rintro ⟨km, h⟩
        simp only [parseDistance, hf] at h
        exact absurd h (by simp)
      · rintro ⟨u, hu, -⟩
        rw [hf] at hu
        exact absurd hu (by simp)
      · intro u c hu _
        rw [hf] at hu
        exact absurd hu (by simp)
    · rcases hp : goParseFloat (goTrimSpace (goTrimSuffix (goToLower (goTrimSpace s)) u.abbr))
        with e | c
      · refine ⟨⟨?_, ?_⟩, ?_⟩
        · rintro ⟨km, h⟩
          simp only [parseDistance, hf, hp] at h
          exact absurd h (by simp)
        · rintro ⟨u', hu', c', hc'⟩
          rw [hf] at hu'
          injection hu' with h
          subst h
          rw [hp] at hc'
          exact absurd hc' (by simp)
        · intro u' c' hu' hc'
          rw [hf] at hu'
          injection hu' with h
          subst h
          rw [hp] at hc'
          exact absurd hc' (by simp)
      · refine ⟨⟨?_, ?_⟩, ?_⟩
        · intro _
          exact ⟨u, hf, c, hp⟩
        · intro _
          exact ⟨c / u.perKM, by simp only [parseDistance, hf, hp]⟩
        · intro u' c' hu' hc'
          rw [hf] at hu'
          injection hu' with h
          subst h
          rw [hp] at hc'
          injection hc' with h2
          subst h2
          simp only [parseDistance, hf, hp]

theorem C7_witness :
    units.find? (fun v => goHasSuffix (goToLower (goTrimSpace "50m")) v.abbr) =
      some ⟨"m", 1000⟩ ∧
    goParseFloat (goTrimSpace (goTrimSuffix (goToLower (goTrimSpace "50m")) "m")) =
      Except.ok 50 ∧
    parseDistance "50m" = Except.ok (50 / 1000) :=
  ⟨by decide, by with_unfolding_all decide,
   (C7_parse_distance.2 "50m").2 ⟨"m", 1000⟩ 50 (by decide)
     (by with_unfolding_all decide)⟩

/-! ## Claim C2 -/

theorem bisect_ok_dist (vd : Dist) (p1 : Point) (targetDistance : ℚ) :
    ∀ (fuel : Nat) (a b q : Point),
      bisect vd p1 targetDistance fuel a b = some (Except.ok q) →
      ∃ d, vd p1 q = Except.ok d ∧ qabs (d - targetDistance) < 1/10000 := by
  intro fuel
  induction fuel with
  | zero =>
    intro a b q h
    exact absurd h (by simp [bisect])
  | succ fuel ih =>
    intro a b q h
    simp only [bisect] at h
    rcases hvd : vd p1 ⟨(a.Lat + b.Lat) / 2, (a.Long + b.Long) / 2⟩ with e | d <;>
      rw [hvd] at h
    · simp at h
    · simp only at h
      by_cases hlt : qabs (d - targetDistance) < 1/10000
      · rw [if_pos hlt] at h
        obtain rfl : (⟨(a.Lat + b.Lat) / 2, (a.Long + b.Long) / 2⟩ : Point) = q := by
          simpa using h
        exact ⟨d, hvd, hlt⟩
      · rw [if_neg hlt] at h
        by_cases hgt : d > targetDistance
        · rw [if_pos hgt] at h
          exact ih a ⟨(a.Lat + b.Lat) / 2, (a.Long + b.Long) / 2⟩ q h
        · rw [if_neg hgt] at h
          exact ih ⟨(a.Lat + b.Lat) / 2, (a.Long + b.Long) / 2⟩ b q h

theorem find_ok_dist (vd : Dist) (p1 : Point) (axis : Axis)
    (dir limit targetDistance : ℚ) (fuel : Nat) (q : Point)
    (h : find vd p1 axis dir limit targetDistance fuel = some (Except.ok q)) :
    ∃ d, vd p1 q = Except.ok d ∧ qabs (d - targetDistance) < 1/10000 := by
  unfold find at h
  rcases hexp : expand vd p1 axis dir limit targetDistance fuel p1 (1/1000000)
    with _ | (e | p2) <;> rw [hexp] at h
  · simp at h
  · simp at h
  · exact bisect_ok_dist vd p1 targetDistance fuel p1 p2 q h

/-- Claim C2: for every center, direction and target radius for which the
per-direction search succeeds, the returned extreme point has distance
from the center differing from the target radius by less than 0.0001 km —
bisection only terminates successfully at a midpoint satisfying that
bound. -/
theorem C2_extreme_within_tolerance (vd : Dist) (p1 : Point) (axis : Axis)
    (dir limit targetDistance : ℚ) (fuel : Nat) (q : Point)
    (h : find vd p1 axis dir limit targetDistance fuel = some (Except.ok q)) :
    ∃ d, vd p1 q = Except.ok d ∧ |d - targetDistance| < 1/10000 := by
  obtain ⟨d, hd, hq⟩ := find_ok_dist vd p1 axis dir limit targetDistance fuel q h
  exact ⟨d, hd, by rwa [qabs_eq_abs] at hq⟩

theorem C2_witness :
    ∃ d, vdSlack ⟨0, 0⟩ ⟨0, 1/2000000⟩ = Except.ok d ∧ |d - 1| < 1/10000 :=
  C2_extreme_within_tolerance vdSlack ⟨0, 0⟩ Axis.long 1 180 1 2 ⟨0, 1/2000000⟩
    (by norm_num [find, expand, bisect, vdSlack, qabs, Point.setAxis, Point.get])

/-! ## Claim C1 -/

/-- Claim C1 counterexample: under the oracle `vdSlack` the solver succeeds
(bisection converging from slightly below the target), yet the point
`(0, 1/1999900)` is at distance exactly the target radius 1 from the
center and lies strictly outside the returned box — the containment
property fails. -/
theorem C1_counterexample :
    findBoundingBox vdSlack ⟨0, 0⟩ 1 2 =
      some (Except.ok (⟨1/2000000, 1/2000000⟩, ⟨-(1/2000000), -(1/2000000)⟩)) ∧
    vdSlack ⟨0, 0⟩ ⟨0, 1/1999900⟩ = Except.ok 1 ∧ (1 : ℚ) ≤ 1 ∧
    ¬ inBox ⟨-(1/2000000), -(1/2000000)⟩ ⟨1/2000000, 1/2000000⟩ ⟨0, 1/1999900⟩ := by
  refine ⟨?_, ?_, le_refl 1, ?_⟩
  · norm_num [findBoundingBox, find, expand, bisect, vdSlack, qabs,
      Point.setAxis, Point.get]
  · norm_num [vdSlack, qabs]
  · norm_num [inBox]

/-- Claim C1 amended: when the solver succeeds, the returned box is exactly
composed from four cardinal extreme points, each of whose oracle distance
from the center is within 0.0001 km of the target radius; containment of
every point within the radius is not guaranteed. -/
theorem C1_amended_box_from_extremes (vd : Dist) (p : Point) (size : ℚ)
    (fuel : Nat) (ne' sw' : Point)
    (h : findBoundingBox vd p size fuel = some (Except.ok (ne', sw'))) :
    ∃ e n w s : Point,
      ne' = ⟨n.Lat, e.Long⟩ ∧ sw' = ⟨s.Lat, w.Long⟩ ∧
      (∃ d, vd p e = Except.ok d ∧ |d - size| < 1/10000) ∧
      (∃ d, vd p n = Except.ok d ∧ |d - size| < 1/10000) ∧
      (∃ d, vd p w = Except.ok d ∧ |d - size| < 1/10000) ∧
      (∃ d, vd p s = Except.ok d ∧ |d - size| < 1/10000) := by
  unfold findBoundingBox at h
  rcases he : find vd p Axis.long 1 180 size fuel with _ | (ee | pe) <;> rw [he] at h
  · simp at h
  · simp at h
  rcases hn : find vd p Axis.lat 1 90 size fuel with _ | (en | pn) <;> rw [hn] at h
  · simp at h
  · simp at h
  rcases hw : find vd p Axis.long (-1) (-180) size fuel with _ | (ew | pw) <;> rw [hw] at h
  · simp at h
  · simp at h
  rcases hs : find vd p Axis.lat (-1) (-90) size fuel with _ | (es | ps) <;> rw [hs] at h
  · simp at h
  · simp at h
  simp only [Option.some.injEq, Except.ok.injEq, Prod.mk.injEq] at h
  obtain ⟨hne, hsw⟩ := h
  refine ⟨pe, pn, pw, ps, hne.symm, hsw.symm, ?_, ?_, ?_, ?_⟩
  · obtain ⟨d, hd, hq⟩ := find_ok_dist vd p Axis.long 1 180 size fuel pe he
    exact ⟨d, hd, by rwa [qabs_eq_abs] at hq⟩
  · obtain ⟨d, hd, hq⟩ := find_ok_dist vd p Axis.lat 1 90 size fuel pn hn
    exact ⟨d, hd, by rwa [qabs_eq_abs] at hq⟩
  · obtain ⟨d, hd, hq⟩ := find_ok_dist vd p Axis.long (-1) (-180) size fuel pw hw
    exact ⟨d, hd, by rwa [qabs_eq_abs] at hq⟩
  · obtain ⟨d, hd, hq⟩ := find_ok_dist vd p Axis.lat (-1) (-90) size fuel ps hs
    exact ⟨d, hd, by rwa [qabs_eq_abs] at hq⟩

theorem C1_amended_witness :
    ∃ e n w s : Point,
      (⟨1/2000000, 1/2000000⟩ : Point) = ⟨n.Lat, e.Long⟩ ∧
      (⟨-(1/2000000), -(1/2000000)⟩ : Point) = ⟨s.Lat, w.Long⟩ ∧
      (∃ d, vdSlack ⟨0, 0⟩ e = Except.ok d ∧ |d - 1| < 1/10000) ∧
      (∃ d, vdSlack ⟨0, 0⟩ n = Except.ok d ∧ |d - 1| < 1/10000) ∧
      (∃ d, vdSlack ⟨0, 0⟩ w = Except.ok d ∧ |d - 1| < 1/10000) ∧
      (∃ d, vdSlack ⟨0, 0⟩ s = Except.ok d ∧ |d - 1| < 1/10000) :=
  C1_amended_box_from_extremes vdSlack ⟨0, 0⟩ 1 2 ⟨1/2000000, 1/2000000⟩
    ⟨-(1/2000000), -(1/2000000)⟩
    (by norm_num [findBoundingBox, find, expand, bisect, vdSlack, qabs,
      Point.setAxis, Point.get])

/-! ## Claim C6 -/

theorem expand_small (vd : Dist) (p1 : Point) (axis : Axis)
    (dir limit targetDistance : ℚ)
    (hvd : ∀ q : Point, ∃ d, vd p1 q = Except.ok d ∧ d ≤ targetDistance) :
    ∀ (fuel : Nat) (p2 : Point) (inc : ℚ),
      expand vd p1 axis dir limit targetDistance fuel p2 inc = none ∨
      expand vd p1 axis dir limit targetDistance fuel p2 inc =
        some (Except.error FindError.tooCloseToPoleOrMeridian) := by
  intro fuel
  induction fuel with
  | zero => intro p2 inc; exact Or.inl rfl
  | succ fuel ih =>
    intro p2 inc
    simp only [expand]
    by_cases hg : (Point.setAxis p2 axis (Point.get p2 axis + inc * dir)).get axis * dir >
        limit * dir
    · rw [if_pos hg]
      exact Or.inr rfl
    · rw [if_neg hg]
      obtain ⟨d, hd, hle⟩ := hvd (Point.setAxis p2 axis (Point.get p2 axis + inc * dir))
      rw [hd]
      simp only
      rw [if_neg (not_lt.mpr hle)]
      exact ih (Point.setAxis p2 axis (Point.get p2 axis + inc * dir)) (inc * 2)

theorem find_small (vd : Dist) (p1 : Point) (axis : Axis)
    (dir limit targetDistance : ℚ) (fuel : Nat)
    (hvd : ∀ q : Point, ∃ d, vd p1 q = Except.ok d ∧ d ≤ targetDistance) :
    find vd p1 axis dir limit targetDistance fuel = none ∨
    find vd p1 axis dir limit targetDistance fuel =
      some (Except.error FindError.tooCloseToPoleOrMeridian) := by
  unfold find
  rcases expand_small vd p1 axis dir limit targetDistance hvd fuel p1 (1/1000000)
    with h | h <;> rw [h]
  · exact Or.inl rfl
  · exact Or.inr rfl

theorem findBoundingBox_small (vd : Dist) (p : Point) (size : ℚ) (fuel : Nat)
    (hvd : ∀ q : Point, ∃ d, vd p q = Except.ok d ∧ d ≤ size) :
    findBoundingBox vd p size fuel = none ∨
    findBoundingBox vd p size fuel =
      some (Except.error FindError.tooCloseToPoleOrMeridian) := by
  unfold findBoundingBox
  rcases find_small vd p Axis.long 1 180 size fuel hvd with h | h <;> rw [h]
  · exact Or.inl rfl
  · exact Or.inr rfl

/-- Claim C6: the expansion phase fails with the too-close-to-pole-or-
meridian error as soon as the stepped coordinate passes the hard limit;
when the distance never exceeds the target (the disk reaches past the
limit) the box solver can only run out of fuel or fail with that error;
and a bounding-box failure is fatal — `main` reports the error and no
scan output is ever produced. -/
theorem C6_pole_meridian_guard_fatal :
    (∀ (vd : Dist) (p1 : Point) (axis : Axis) (dir limit targetDistance inc : ℚ)
        (fuel : Nat) (p2 : Point),
      (Point.setAxis p2 axis (Point.get p2 axis + inc * dir)).get axis * dir >
        limit * dir →
      expand vd p1 axis dir limit targetDistance (fuel + 1) p2 inc =
        some (Except.error FindError.tooCloseToPoleOrMeridian)) ∧
    (∀ (vd : Dist) (p : Point) (size : ℚ) (fuel : Nat),
      (∀ q : Point, ∃ d, vd p q = Except.ok d ∧ d ≤ size) →
      findBoundingBox vd p size fuel = none ∨
      findBoundingBox vd p size fuel =
        some (Except.error FindError.tooCloseToPoleOrMeridian)) ∧
    (∀ (vd : Dist) (debug : Bool) (lat long : ℚ) (thrStr : String)
        (points : List ConvertedLocation) (R : ℚ) (fuel : Nat) (e : FindError),
      parseDistance thrStr = Except.ok R →
      findBoundingBox vd ⟨lat, long⟩ (R * 2) fuel = some (Except.error e) →
      mainFlow vd debug lat long thrStr points fuel =
        some (Except.error (MainError.boundingBox e)) ∧
      ∀ visits, mainFlow vd debug lat long thrStr points fuel ≠
        some (Except.ok visits)) := by
  refine ⟨?_, ?_, ?_⟩
  · intro vd p1 axis dir limit targetDistance inc fuel p2 hg
    simp only [expand]
    rw [if_pos hg]
  · intro vd p size fuel hvd
    exact findBoundingBox_small vd p size fuel hvd
  · intro vd debug lat long thrStr points R fuel e hparse hbox
    constructor
    · simp only [mainFlow, hparse, hbox]
    · intro visits hv
      simp only [mainFlow, hparse, hbox] at hv
      exact absurd hv (by simp)

theorem C6_witness :
    expand vdZero ⟨0, 0⟩ Axis.long 1 180 1 1 ⟨0, 0⟩ 400 =
      some (Except.error FindError.tooCloseToPoleOrMeridian) ∧
    (findBoundingBox vdZero ⟨0, 0⟩ (1/10) 1 = none ∨
      findBoundingBox vdZero ⟨0, 0⟩ (1/10) 1 =
        some (Except.error FindError.tooCloseToPoleOrMeridian)) ∧
    (mainFlow vdZero false 0 (1799999995/10000000) "50m" [] 2 =
        some (Except.error (MainError.boundingBox FindError.tooCloseToPoleOrMeridian)) ∧
      ∀ visits, mainFlow vdZero false 0 (1799999995/10000000) "50m" [] 2 ≠
        some (Except.ok visits)) :=
  ⟨C6_pole_meridian_guard_fatal.1 vdZero ⟨0, 0⟩ Axis.long 1 180 1 400 0 ⟨0, 0⟩
      (by norm_num [Point.setAxis, Point.get]),
   C6_pole_meridian_guard_fatal.2.1 vdZero ⟨0, 0⟩ (1/10) 1
      (fun q => ⟨0, rfl, by norm_num⟩),
   C6_pole_meridian_guard_fatal.2.2 vdZero false 0 (1799999995/10000000) "50m" []
      (1/20) 2 FindError.tooCloseToPoleOrMeridian
      (by with_unfolding_all decide)
      (by norm_num [findBoundingBox, find, expand, vdZero, Point.setAxis, Point.get])⟩

/-! ## Claim C5 -/

/-- Claim C5: at every run closure (triggered by the outside-run counter or
by reaching the last index, for a point that is not skipped), a
VisitRecord is emitted if and only if the updated max-consecutive-inside
counter is at least `minPinpointCount` (= 10); otherwise the run is
discarded, surfaced in the dropped-run debug log exactly when debug mode
is on and the run had at least one inside point; both counters are
reset. -/
theorem C5_closure_qualification (vd : Dist) (debug : Bool) (target : Point)
    (threshholdKm : ℚ) (points : List ConvertedLocation) (indexes : List Nat)
    (lastIdx : Nat) (st : ScanState) (idx : Nat) (b : Bool) (st1 : ScanState)
    (hc : classify vd target threshholdKm points indexes idx = some b)
    (hst1 : st1 = if b then insideUpdate (points.getD idx default) st else outsideUpdate st)
    (hclose : minPinpointCount ≤ st1.consecutiveOutsideCount ∨ idx = lastIdx) :
    (((scanStep vd debug target threshholdKm points indexes lastIdx st idx).visits =
        st.visits ++ [runRecord st1]) ↔
      minPinpointCount ≤ st1.maxConsecutiveInsideCount) ∧
    (scanStep vd debug target threshholdKm points indexes lastIdx st idx).totalInsideCount = 0 ∧
    (scanStep vd debug target threshholdKm points indexes lastIdx st idx).maxConsecutiveInsideCount = 0 ∧
    (¬ minPinpointCount ≤ st1.maxConsecutiveInsideCount →
      (((scanStep vd debug target threshholdKm points indexes lastIdx st idx).dropped =
          st.dropped ++ [runRecord st1]) ↔
        (debug = true ∧ 0 < st1.totalInsideCount))) := by
  have hpres : st1.visits = st.visits ∧ st1.dropped = st.dropped := by
    rw [hst1]
    cases b <;> simp [insideUpdate, outsideUpdate]
  have hstep : scanStep vd debug target threshholdKm points indexes lastIdx st idx =
      closeRun debug st1 := by
    simp only [scanStep, hc, ← hst1]
    rw [if_pos hclose]
  rw [hstep]
  unfold closeRun
  by_cases hq : minPinpointCount ≤ st1.maxConsecutiveInsideCount
  · rw [if_pos hq]
    refine ⟨?_, rfl, rfl, fun hq' => absurd hq hq'⟩
    simp only [hq, iff_true]
    simp [hpres.1]
  · rw [if_neg hq]
    by_cases hb : 0 < st1.totalInsideCount ∧ debug = true
    · rw [if_pos hb]
      refine ⟨?_, rfl, rfl, fun _ => ?_⟩
      · simp only [hq, iff_false]
        intro hv
        simp only [hpres.1] at hv
        simp at hv
      · constructor
        · intro _
          exact ⟨hb.2, hb.1⟩
        · intro _
          simp [hpres.2]
    · rw [if_neg hb]
      refine ⟨?_, rfl, rfl, fun _ => ?_⟩
      · simp only [hq, iff_false]
        intro hv
        simp only [hpres.1] at hv
        simp at hv
      · constructor
        · intro hv
          simp only [hpres.2] at hv
          simp at hv
        · intro hdb
          exact absurd ⟨hdb.2, hdb.1⟩ hb

theorem C5_witness :
    (((scanStep vdZero false ⟨0, 0⟩ 1 [] [] 5 ⟨0, 0, 12, 0, 10, 9, [], []⟩ 0).visits =
        ([] : List VisitRecord) ++ [runRecord ⟨0, 0, 12, 0, 10, 10, [], []⟩]) ↔
      minPinpointCount ≤ (⟨0, 0, 12, 0, 10, 10, [], []⟩ : ScanState).maxConsecutiveInsideCount) ∧
    (scanStep vdZero false ⟨0, 0⟩ 1 [] [] 5 ⟨0, 0, 12, 0, 10, 9, [], []⟩ 0).totalInsideCount = 0 ∧
    (scanStep vdZero false ⟨0, 0⟩ 1 [] [] 5 ⟨0, 0, 12, 0, 10, 9, [], []⟩ 0).maxConsecutiveInsideCount = 0 ∧
    (¬ minPinpointCount ≤ (⟨0, 0, 12, 0, 10, 10, [], []⟩ : ScanState).maxConsecutiveInsideCount →
      (((scanStep vdZero false ⟨0, 0⟩ 1 [] [] 5 ⟨0, 0, 12, 0, 10, 9, [], []⟩ 0).dropped =
          ([] : List VisitRecord) ++ [runRecord ⟨0, 0, 12, 0, 10, 10, [], []⟩]) ↔
        (false = true ∧ 0 < (⟨0, 0, 12, 0, 10, 10, [], []⟩ : ScanState).totalInsideCount))) :=
  C5_closure_qualification vdZero false ⟨0, 0⟩ 1 [] [] 5 ⟨0, 0, 12, 0, 10, 9, [], []⟩ 0
    false ⟨0, 0, 12, 0, 10, 10, [], []⟩
    (by norm_num [classify])
    (by norm_num [outsideUpdate])
    (by norm_num [minPinpointCount])

/-! ## Claim C4 -/

theorem outside_run_chain (vd : Dist) (debug : Bool) (target : Point)
    (threshholdKm : ℚ) (points : List ConvertedLocation) (indexes : List Nat)
    (lastIdx : Nat) :
    ∀ (l : List Nat) (sT eT : Int) (tic cic mc coc : Nat)
      (vis dr : List VisitRecord),
      (∀ i ∈ l, classify vd target threshholdKm points indexes i = some false ∧
        i ≠ lastIdx) →
      coc + l.length ≤ minPinpointCount - 1 →
      l.foldl (scanStep vd debug target threshholdKm points indexes lastIdx)
          ⟨sT, eT, tic, cic, mc, coc, vis, dr⟩ =
        ⟨sT, eT, tic, if l.isEmpty then cic else 0, mc, coc + l.length, vis, dr⟩ := by
  intro l
  induction l with
  | nil => intro sT eT tic cic mc coc vis dr _ _; simp
  | cons i l ih =>
    intro sT eT tic cic mc coc vis dr hl hlen
    obtain ⟨hci, hil⟩ := hl i (List.mem_cons_self i l)
    have hlen' : coc + 1 + l.length ≤ minPinpointCount - 1 := by
      simp only [List.length_cons] at hlen
      omega
    have hstep : scanStep vd debug target threshholdKm points indexes lastIdx
        ⟨sT, eT, tic, cic, mc, coc, vis, dr⟩ i = ⟨sT, eT, tic, 0, mc, coc + 1, vis, dr⟩ := by
      simp only [scanStep, hci, Bool.false_eq_true, if_false, outsideUpdate]
      rw [if_neg (by
        push_neg
        refine ⟨?_, hil⟩
        simp only [minPinpointCount] at hlen' ⊢
        omega)]
    rw [List.foldl_cons, hstep,
      ih sT eT tic 0 mc (coc + 1) vis dr
        (fun j hj => hl j (List.mem_cons_of_mem i hj)) hlen']
    simp only [List.isEmpty_cons, List.length_cons, ite_self, Bool.false_eq_true,
      if_false, ScanState.mk.injEq, true_and, and_true]
    omega

/-- Claim C4: in a scan state with no pending outside points, a gap of
exactly `minPinpointCount - 1` (= 9) outside-classified points followed by
an inside point does not close the open run — the total-inside counter
just increments and the max counter is kept — while a gap of exactly
`minPinpointCount` (= 10) outside-classified points closes it, resetting
both counters (none of the gap indices being the last index of the
span). -/
theorem C4_gap_hysteresis :
    (∀ (vd : Dist) (debug : Bool) (target : Point) (threshholdKm : ℚ)
        (points : List ConvertedLocation) (indexes : List Nat) (lastIdx : Nat)
        (gap : List Nat) (insideIdx : Nat) (sT eT : Int) (tic cic mc : Nat)
        (vis dr : List VisitRecord),
      (∀ i ∈ gap, classify vd target threshholdKm points indexes i = some false ∧
        i ≠ lastIdx) →
      gap.length = minPinpointCount - 1 →
      classify vd target threshholdKm points indexes insideIdx = some true →
      insideIdx ≠ lastIdx →
      (gap ++ [insideIdx]).foldl
          (scanStep vd debug target threshholdKm points indexes lastIdx)
          ⟨sT, eT, tic, cic, mc, 0, vis, dr⟩ =
        ⟨if tic = 0 then (points.getD insideIdx default).Time else sT,
         (points.getD insideIdx default).Time, tic + 1, 1, max mc 1, 0, vis, dr⟩) ∧
    (∀ (vd : Dist) (debug : Bool) (target : Point) (threshholdKm : ℚ)
        (points : List ConvertedLocation) (indexes : List Nat) (lastIdx : Nat)
        (gap : List Nat) (sT eT : Int) (tic cic mc : Nat)
        (vis dr : List VisitRecord),
      (∀ i ∈ gap, classify vd target threshholdKm points indexes i = some false ∧
        i ≠ lastIdx) →
      gap.length = minPinpointCount →
      (gap.foldl (scanStep vd debug target threshholdKm points indexes lastIdx)
          ⟨sT, eT, tic, cic, mc, 0, vis, dr⟩).totalInsideCount = 0 ∧
      (gap.foldl (scanStep vd debug target threshholdKm points indexes lastIdx)
          ⟨sT, eT, tic, cic, mc, 0, vis, dr⟩).maxConsecutiveInsideCount = 0) := by
  constructor
  · intro vd debug target threshholdKm points indexes lastIdx gap insideIdx
      sT eT tic cic mc vis dr hgap hlen hin hinlast
    rw [List.foldl_append,
      outside_run_chain vd debug target threshholdKm points indexes lastIdx gap
        sT eT tic cic mc 0 vis dr hgap (by omega)]
    have hgapne : gap.isEmpty = false := by
      cases gap
      · simp [minPinpointCount] at hlen
      · simp
    rw [hgapne]
    simp only [Bool.false_eq_true, if_false, List.foldl_cons, List.foldl_nil]
    simp only [scanStep, hin, if_true, insideUpdate]
    rw [if_neg (by
      push_neg
      refine ⟨by simp [minPinpointCount], hinlast⟩)]
  · intro vd debug target threshholdKm points indexes lastIdx gap
      sT eT tic cic mc vis dr hgap hlen
    have hne : gap ≠ [] := by
      intro h0
      rw [h0] at hlen
      simp [minPinpointCount] at hlen
    obtain ⟨l, a, hla⟩ : ∃ l a, gap = l ++ [a] :=
      ⟨gap.dropLast, gap.getLast hne, (List.dropLast_append_getLast hne).symm⟩
    subst hla
    have hlen9 : l.length = 9 := by
      simp only [List.length_append, List.length_singleton, minPinpointCount] at hlen
      omega
    have hl : ∀ i ∈ l, classify vd target threshholdKm points indexes i = some false ∧
        i ≠ lastIdx := fun i hi => hgap i (List.mem_append_left _ hi)
    obtain ⟨hca, hala⟩ := hgap a (List.mem_append_right _ (List.mem_singleton_self a))
    rw [List.foldl_append,
      outside_run_chain vd debug target threshholdKm points indexes lastIdx l
        sT eT tic cic mc 0 vis dr hl (by simp only [minPinpointCount]; omega)]
    have hlne : l.isEmpty = false := by
      cases l
      · simp at hlen9
      · simp
    rw [hlne]
    simp only [Bool.false_eq_true, if_false, List.foldl_cons, List.foldl_nil, hlen9]
    simp only [scanStep, hca, outsideUpdate]
    rw [if_pos (Or.inl (by simp [minPinpointCount]))]
    simp [closeRun]

theorem C4_witness :
    ((([1, 2, 3, 4, 5, 6, 20, 21, 22] : List Nat) ++ [7]).foldl
        (scanStep vdZero false ⟨0, 0⟩ 1 [] [7] 50)
        ⟨5, 6, 3, 4, 7, 0, [], []⟩ =
      ⟨if (3 : Nat) = 0 then (([] : List ConvertedLocation).getD 7 default).Time else 5,
       (([] : List ConvertedLocation).getD 7 default).Time, 3 + 1, 1, max 7 1, 0, [], []⟩) ∧
    ((([1, 2, 3, 4, 5, 6, 20, 21, 22, 23] : List Nat).foldl
        (scanStep vdZero false ⟨0, 0⟩ 1 [] [7] 50)
        ⟨5, 6, 3, 4, 7, 0, [], []⟩).totalInsideCount = 0 ∧
      (([1, 2, 3, 4, 5, 6, 20, 21, 22, 23] : List Nat).foldl
        (scanStep vdZero false ⟨0, 0⟩ 1 [] [7] 50)
        ⟨5, 6, 3, 4, 7, 0, [], []⟩).maxConsecutiveInsideCount = 0) :=
  ⟨C4_gap_hysteresis.1 vdZero false ⟨0, 0⟩ 1 [] [7] 50 [1, 2, 3, 4, 5, 6, 20, 21, 22] 7
      5 6 3 4 7 [] []
      (by with_unfolding_all decide)
      (by decide)
      (by with_unfolding_all decide)
      (by decide),
   C4_gap_hysteresis.2 vdZero false ⟨0, 0⟩ 1 [] [7] 50 [1, 2, 3, 4, 5, 6, 20, 21, 22, 23]
      5 6 3 4 7 [] []
      (by with_unfolding_all decide)
      (by decide)⟩

/-! ## Claim C3 -/

/-- The point list of the C3 counterexample: ten points at the target and a
final point at `(9, 9)`, where the oracle fails to converge. -/
def ptsC3 : List ConvertedLocation :=
  [⟨0, 0, 0⟩, ⟨0, 0, 1⟩, ⟨0, 0, 2⟩, ⟨0, 0, 3⟩, ⟨0, 0, 4⟩, ⟨0, 0, 5⟩,
   ⟨0, 0, 6⟩, ⟨0, 0, 7⟩, ⟨0, 0, 8⟩, ⟨0, 0, 9⟩, ⟨9, 9, 10⟩]

/-- Claim C3 counterexample: the scan reaches the last index of the span
with a just-finished run of 10 consecutive inside points, but because the
last point is a candidate whose distance computation fails to converge the
`continue` skips the run-closure check — no VisitRecord is emitted. -/
theorem C3_counterexample :
    (scanVisits vdFailAt99 false ⟨0, 0⟩ 1 ptsC3 (List.range 11)).visits = [] ∧
    (scanIndices vdFailAt99 false ⟨0, 0⟩ 1 ptsC3 (List.range 11) 10
      (List.range' 0 10)).maxConsecutiveInsideCount = 10 ∧
    classify vdFailAt99 ⟨0, 0⟩ 1 ptsC3 (List.range 11) 10 = none := by
  refine ⟨?_, ?_, ?_⟩ <;> with_unfolding_all decide

/-- Claim C3 amended: when the scan reaches the last index of the span and
the point there is classified (it is a non-candidate, or a candidate whose
distance converges), the run closure runs: the whole scan equals the
closure of the updated state, both counters are reset, and a VisitRecord
is appended exactly when the updated max-consecutive-inside counter
reaches `minPinpointCount`.  When the last point is a skipped candidate
the closure is skipped instead (see the counterexample). -/
theorem C3_closure_at_last_unless_skipped (vd : Dist) (debug : Bool)
    (target : Point) (threshholdKm : ℚ) (points : List ConvertedLocation)
    (indexes : List Nat) (first last : Nat) (b : Bool)
    (hfl : first ≤ last)
    (hc : classify vd target threshholdKm points indexes last = some b) :
    ∀ pre st1 : ScanState,
      pre = scanIndices vd debug target threshholdKm points indexes last
        (List.range' first (last - first)) →
      st1 = (if b then insideUpdate (points.getD last default) pre
        else outsideUpdate pre) →
      scanIndices vd debug target threshholdKm points indexes last
          (List.range' first (last + 1 - first)) = closeRun debug st1 ∧
      (scanIndices vd debug target threshholdKm points indexes last
          (List.range' first (last + 1 - first))).totalInsideCount = 0 ∧
      (scanIndices vd debug target threshholdKm points indexes last
          (List.range' first (last + 1 - first))).maxConsecutiveInsideCount = 0 ∧
      (minPinpointCount ≤ st1.maxConsecutiveInsideCount →
        (scanIndices vd debug target threshholdKm points indexes last
          (List.range' first (last + 1 - first))).visits =
          pre.visits ++ [runRecord st1]) := by
  intro pre st1 hpre hst1
  have hsplit : List.range' first (last + 1 - first) =
      List.range' first (last - first) ++ [last] := by
    have h1 : last + 1 - first = (last - first) + 1 := by omega
    rw [h1, List.range'_concat]
    congr 1
    simp
    omega
  have hfull : scanIndices vd debug target threshholdKm points indexes last
      (List.range' first (last + 1 - first)) = closeRun debug st1 := by
    rw [hsplit]
    unfold scanIndices
    rw [List.foldl_append]
    simp only [List.foldl_cons, List.foldl_nil]
    rw [hst1, hpre]
    unfold scanIndices
    simp only [scanStep, hc]
    rw [if_pos (Or.inr trivial)]
  have hvis : st1.visits = pre.visits := by
    rw [hst1]
    cases b <;> simp [insideUpdate, outsideUpdate]
  refine ⟨hfull, by rw [hfull]; rfl, by rw [hfull]; rfl, fun hq => ?_⟩
  rw [hfull]
  unfold closeRun
  rw [if_pos hq]
  simpa using hvis

theorem C3_witness :
    scanIndices vdZero false ⟨0, 0⟩ 1 [] (List.range 11) 10 (List.range' 0 11) =
      closeRun false
        (insideUpdate (([] : List ConvertedLocation).getD 10 default)
          (scanIndices vdZero false ⟨0, 0⟩ 1 [] (List.range 11) 10 (List.range' 0 10))) ∧
    (scanIndices vdZero false ⟨0, 0⟩ 1 [] (List.range 11) 10
      (List.range' 0 11)).totalInsideCount = 0 ∧
    (scanIndices vdZero false ⟨0, 0⟩ 1 [] (List.range 11) 10
      (List.range' 0 11)).maxConsecutiveInsideCount = 0 ∧
    (minPinpointCount ≤
        (insideUpdate (([] : List ConvertedLocation).getD 10 default)
          (scanIndices vdZero false ⟨0, 0⟩ 1 [] (List.range 11) 10
            (List.range' 0 10))).maxConsecutiveInsideCount →
      (scanIndices vdZero false ⟨0, 0⟩ 1 [] (List.range 11) 10
        (List.range' 0 11)).visits =
        (scanIndices vdZero false ⟨0, 0⟩ 1 [] (List.range 11) 10
          (List.range' 0 10)).visits ++
          [runRecord
            (insideUpdate (([] : List ConvertedLocation).getD 10 default)
              (scanIndices vdZero false ⟨0, 0⟩ 1 [] (List.range 11) 10
                (List.range' 0 10)))]) := by
  have h := C3_closure_at_last_unless_skipped vdZero false ⟨0, 0⟩ 1 []
    (List.range 11) 0 10 true (by decide)
    (by with_unfolding_all decide)
    (scanIndices vdZero false ⟨0, 0⟩ 1 [] (List.range 11) 10 (List.range' 0 10))
    (insideUpdate (([] : List ConvertedLocation).getD 10 default)
      (scanIndices vdZero false ⟨0, 0⟩ 1 [] (List.range 11) 10 (List.range' 0 10)))
    rfl (by simp)
  simpa using h

/-! ## Claim C8 -/

/-- Claim C8: the visit scan is deterministic in the candidate index list —
its result depends only on the set of candidate indices, not on the order
the spatial index returned them (the indices are sorted before the span is
derived and the candidate collection is used only for membership tests). -/
theorem C8_scan_order_independent (vd : Dist) (debug : Bool) (target : Point)
    (threshholdKm : ℚ) (points : List ConvertedLocation) (l1 l2 : List Nat)
    (h : l1.Perm l2) :
    scanVisits vd debug target threshholdKm points l1 =
      scanVisits vd debug target threshholdKm points l2 := by
  have hsort : l1.insertionSort (· ≤ ·) = l2.insertionSort (· ≤ ·) :=
    List.eq_of_perm_of_sorted
      (((List.perm_insertionSort _ l1).trans h).trans
        (List.perm_insertionSort _ l2).symm)
      (List.sorted_insertionSort _ l1) (List.sorted_insertionSort _ l2)
  have hcls : ∀ idx, classify vd target threshholdKm points l1 idx =
      classify vd target threshholdKm points l2 idx := by
    intro idx
    unfold classify
    exact if_congr h.mem_iff rfl rfl
  have hstep : scanStep vd debug target threshholdKm points l1 =
      scanStep vd debug target threshholdKm points l2 := by
    funext lastIdx st idx
    simp only [scanStep, hcls idx]
  unfold scanVisits scanIndices
  rw [hsort, hstep]

theorem C8_witness :
    scanVisits vdZero false ⟨0, 0⟩ 1 [] [1, 0] =
      scanVisits vdZero false ⟨0, 0⟩ 1 [] [0, 1] :=
  C8_scan_order_independent vdZero false ⟨0, 0⟩ 1 [] [1, 0] [0, 1]
    (List.Perm.swap 0 1 [])

end GLH
